import Mathlib

/-!
Verification of the resynchronizing MAVLink frame extractor and pcap writer
in examples/mav2pcap.py.

The extractor (convert_file) scans a byte buffer for the 0xFE start-of-frame
sentinel, proposes frames, validates them with a CRC-16/X.25 checksum and a
resync-confirmation byte, and writes classified units to a pcap container.
Bytes are modelled as natural numbers (values 0..255 in any real input); the
mutable Python string data is modelled as a List Nat repeatedly re-sliced
from the front, exactly as in the source.
-/

set_option maxRecDepth 100000

namespace Mav2pcap

/-- Start-of-frame sentinel byte, MAVLINK_MAGIC in the source. -/
def MAVLINK_MAGIC : Nat := 0xfe

/-- Module-level constant write_junk in the source; always true. -/
def write_junk : Bool := true

/-- Checksum seed table MAVLINK_MESSAGE_CRCS from the source, copied from
ardupilotmega.h.  One entry per message id 0..255. -/
def MAVLINK_MESSAGE_CRCS : List Nat := [
  50, 124, 137, 0, 237, 217, 104, 119, 0, 0, 0, 89, 0, 0, 0, 0, 0, 0, 0, 0,
  214, 159, 220, 168, 24, 23, 170, 144, 67, 115, 39, 246, 185, 104, 237, 244, 242, 212, 9, 254,
  230, 28, 28, 132, 221, 232, 11, 153, 41, 39, 214, 223, 141, 33, 15, 3, 100, 24, 239, 238,
  30, 240, 183, 130, 130, 0, 148, 21, 0, 243, 124, 0, 0, 0, 20, 0, 152, 143, 0, 0,
  127, 106, 0, 0, 0, 0, 0, 0, 0, 231, 183, 63, 54, 0, 0, 0, 0, 0, 0, 0,
  175, 102, 158, 208, 56, 93, 0, 0, 0, 0, 235, 93, 124, 0, 0, 0, 0, 0, 0, 0,
  0, 0, 0, 0, 0, 0, 0, 0, 0, 0, 0, 0, 0, 0, 0, 0, 0, 0, 0, 0,
  0, 0, 0, 0, 0, 0, 0, 42, 241, 15, 134, 219, 208, 188, 84, 22, 19, 21, 134, 0,
  78, 68, 189, 127, 111, 21, 21, 144, 1, 234, 73, 181, 22, 0, 0, 0, 0, 0, 0, 0,
  0, 0, 0, 0, 0, 0, 0, 0, 0, 0, 0, 0, 0, 0, 0, 0, 0, 0, 0, 0,
  0, 0, 0, 0, 0, 0, 0, 0, 0, 0, 0, 0, 0, 0, 0, 0, 0, 0, 0, 0,
  0, 0, 0, 0, 0, 0, 0, 0, 0, 0, 0, 0, 0, 0, 0, 0, 0, 0, 0, 0,
  0, 0, 0, 0, 0, 0, 0, 0, 0, 204, 49, 170, 44, 83, 46, 0]

/-- Modelled from the spec: the accumulate step of mavutil.x25crc (the
pymavlink CRC helper is not under src/; the spec describes it as
CRC-16/X.25, polynomial 0x1021 reflected, initial value 0xFFFF).  One byte
is folded into the running crc:
tmp = b xor (crc and 0xff); tmp = (tmp xor (tmp shl 4)) and 0xff;
crc = (crc shr 8) xor (tmp shl 8) xor (tmp shl 3) xor (tmp shr 4). -/
def x25acc (crc b : Nat) : Nat :=
  let tmp := b ^^^ (crc % 256)
  let tmp2 := (tmp ^^^ (tmp <<< 4)) % 256
  (crc >>> 8) ^^^ (tmp2 <<< 8) ^^^ (tmp2 <<< 3) ^^^ (tmp2 >>> 4)

/-- Modelled from the spec: mavutil.x25crc run over a byte list starting
from the initial value 0xFFFF. -/
def x25run (l : List Nat) : Nat := l.foldl x25acc 0xffff

/-- Modelled from the spec: the full frame checksum of convert_file, the
running CRC over the given bytes followed by one extra accumulation of the
per-message seed byte. -/
def x25seed (l : List Nat) (seed : Nat) : Nat := x25acc (x25run l) seed

/-- Result of find_next_frame: index of the first sentinel byte, if any
(the source returns -1 when absent, modelled as none). -/
def find_next_frame (data : List Nat) : Option Nat :=
  data.findIdx? (fun b => b == MAVLINK_MAGIC)

/-- The six header fields parsed by parse_header with construct. -/
structure Header where
  plength : Nat
  sequence : Nat
  sysid : Nat
  compid : Nat
  msgid : Nat
  deriving DecidableEq, Repr

/-- Model of parse_header: reads 6 bytes at the front of data and checks the
Const magic field.  Returns none exactly when construct raises (fewer than 6
bytes, or first byte not the sentinel); in convert_file that exception is
not caught, so a none here is an unhandled crash. -/
def parse_header (data : List Nat) : Option Header :=
  if 6 ≤ data.length ∧ data.getD 0 0 = MAVLINK_MAGIC then
    some ⟨data.getD 1 0, data.getD 2 0, data.getD 3 0, data.getD 4 0, data.getD 5 0⟩
  else none

/-- One pcap record as passed to write_packet (number, data, flags,
pkt_length): number is the loop iteration used as the timestamp-seconds
surrogate, flags the classification (0 ok, 1 crc error, 3 junk), pktLen the
pkt_length argument and datum the raw bytes. -/
structure PcapRec where
  number : Nat
  flags : Nat
  pktLen : Nat
  datum : List Nat
  deriving DecidableEq, Repr

/-- Mutable state of the convert_file loop. -/
structure St where
  data : List Nat
  skipped : Option Nat
  junk : List Nat
  i : Nat
  cntOk : Nat
  cntCrc : Nat
  cntJunk : Nat
  out : List PcapRec
  deriving DecidableEq, Repr

/-- Outcome of one loop iteration: continue, exit the loop via done = True,
or raise an unhandled exception. -/
inductive StepRes where
  | cont (s : St)
  | finished (s : St)
  | crashed (s : St)
  deriving DecidableEq, Repr

/-- The junk-skipping block at the top of each convert_file iteration: if
the next sentinel is at offset k greater than 0, optionally rebuild the junk
buffer (only when a skipped byte is pending - the buffer otherwise keeps its
stale previous value), write it as a flags 0x03 record, slice data past the
junk and bump the junk counter. -/
def junkPhase (s : St) : St :=
  match find_next_frame s.data with
  | some k =>
    if 0 < k then
      if write_junk then
        match s.skipped with
        | some c =>
          let j := c :: s.data.take k
          { s with out := s.out ++ [⟨s.i, 3, j.length, j⟩], junk := j,
                   skipped := none, data := s.data.drop k, cntJunk := s.cntJunk + 1 }
        | none =>
          { s with out := s.out ++ [⟨s.i, 3, s.junk.length, s.junk⟩],
                   data := s.data.drop k, cntJunk := s.cntJunk + 1 }
      else
        { s with data := s.data.drop k, cntJunk := s.cntJunk + 1 }
    else s
  | none => s

/-- The frame-handling part of one convert_file iteration, run after the
junk block: parse the header (uncaught exception if that fails), read the
little-endian stored crc at the end of the proposed frame (FieldError means
done), look up the seed (IndexError means done), compute the running crc and
the crc flag, read the resync-confirmation byte (IndexError means done); on
a failed confirmation stow the first byte and advance one byte, otherwise
emit the frame and advance past it. -/
def frameStep (s : St) : StepRes :=
  match parse_header s.data with
  | none => .crashed s
  | some hdr =>
    let pkt_length := 6 + hdr.plength + 2
    if s.data.length < pkt_length then .finished s
    else
      let pkt_crc := s.data.getD (pkt_length - 2) 0 + 256 * s.data.getD (pkt_length - 1) 0
      if hdr.msgid < MAVLINK_MESSAGE_CRCS.length then
        let x25_crc := x25seed ((s.data.drop 1).take (5 + hdr.plength))
          (MAVLINK_MESSAGE_CRCS.getD hdr.msgid 0)
        let crc_flag := if x25_crc ≠ pkt_crc then 1 else 0
        if s.data.length ≤ pkt_length then .finished s
        else if s.data.getD pkt_length 0 ≠ MAVLINK_MAGIC then
          .cont { s with skipped := some (s.data.getD 0 0), data := s.data.drop 1 }
        else
          let pkt := s.data.take pkt_length
          .cont { s with out := s.out ++ [⟨s.i, crc_flag, pkt.length, pkt⟩],
                         data := s.data.drop pkt_length,
                         cntOk := if crc_flag = 0 then s.cntOk + 1 else s.cntOk,
                         cntCrc := if crc_flag = 0 then s.cntCrc else s.cntCrc + 1 }
      else .finished s

/-- One full iteration of the convert_file while loop: increment i, run the
junk block, then the frame handling. -/
def step (s : St) : StepRes :=
  frameStep (junkPhase { s with i := s.i + 1 })

/-- The convert_file while loop, with fuel for termination.  Returns none on
fuel exhaustion (never happens from convertFile, whose fuel bounds the data
length), some (true, s) on a clean done = True exit and some (false, s) on
an unhandled exception. -/
def runLoop : Nat → St → Option (Bool × St)
  | 0, _ => none
  | fuel + 1, s =>
    match step s with
    | .cont s' => runLoop fuel s'
    | .finished s' => some (true, s')
    | .crashed s' => some (false, s')

/-- Initial loop state of convert_file on a given input buffer. -/
def initSt (input : List Nat) : St :=
  ⟨input, none, [], 0, 0, 0, 0, []⟩

/-- Overall outcome of convert_file: either a clean run, carrying the
written records and the final ok / crc / junk counters, or an unhandled
exception (from parse_header, or from the ZeroDivisionError in the final
statistics line when no unit at all was classified), carrying the records
written before the crash. -/
inductive Outcome where
  | ok (out : List PcapRec) (cntOk cntCrc cntJunk : Nat)
  | crash (out : List PcapRec)
  deriving DecidableEq, Repr

/-- Model of convert_file on a fully read input buffer.  The statistics
percentage 100 * (junk + crc) / (junk + ok + crc) raises ZeroDivisionError
when all three counters are zero, so such runs crash after the loop. -/
def convertFile (input : List Nat) : Outcome :=
  match runLoop (input.length + 1) (initSt input) with
  | none => .crash []
  | some (false, s) => .crash s.out
  | some (true, s) =>
    if s.cntJunk + s.cntOk + s.cntCrc = 0 then .crash s.out
    else .ok s.out s.cntOk s.cntCrc s.cntJunk

/-- Records written to the pcap stream by a run, crashed or not. -/
def Outcome.packets : Outcome → List PcapRec
  | .ok out _ _ _ => out
  | .crash out => out

/-- Checksum of the 10-byte example frame used in the spec scenarios
(payload_length 2, msgid 0, payload bytes 7 and 8). -/
def exCrc : Nat := x25seed [2, 0, 1, 1, 0, 7, 8] (MAVLINK_MESSAGE_CRCS.getD 0 0)

/-- A well-formed 10-byte frame: sentinel, payload_length 2, sequence 0,
sysid 1, compid 1, msgid 0, payload 7 8, correct little-endian checksum. -/
def validFrame : List Nat :=
  [0xfe, 2, 0, 1, 1, 0, 7, 8, exCrc % 256, exCrc / 256]

/-- A frame with payload_length 0, message id m and the checksum that is
correct for that id, followed by nothing; exercises the seed lookup. -/
def mkFrame (m : Nat) : List Nat :=
  let c := x25seed [0, 0, 0, 0, m] (MAVLINK_MESSAGE_CRCS.getD m 0)
  [0xfe, 0, 0, 0, 0, m, c % 256, c / 256]

/-- C1: byte conservation fails on the code.  On the 18-byte input
0x00 0x00 ++ validFrame ++ 0xFE ++ five junk bytes the run ends cleanly with
an unparsed 6-byte tail and no pending carryover, yet the emitted units hold
only 10 bytes instead of 18 - 6 = 12: the junk record for the two leading
bytes is written from the stale, still-empty junk buffer (the source only
rebuilds junk when a skipped byte is pending), so the bytes 0x00 0x00 are
silently dropped. -/
theorem c1_byte_conservation_fails :
    convertFile ([0, 0] ++ validFrame ++ [0xfe, 1, 2, 3, 4, 5]) =
      .ok [⟨1, 3, 0, []⟩, ⟨1, 0, 10, validFrame⟩] 1 0 1 ∧
    (((convertFile ([0, 0] ++ validFrame ++ [0xfe, 1, 2, 3, 4, 5])).packets.map
        (fun r => r.datum.length)).sum = 10) ∧
    ([0, 0] ++ validFrame ++ [0xfe, 1, 2, 3, 4, 5] : List Nat).length = 18 := by
  refine ⟨by decide, by decide, by decide⟩

/-- C2: the pass does not always reach the statistics computation.  The
empty input and the input 0x00 (no sentinel anywhere) crash inside
parse_header with an uncaught construct error, and the input 0xFE 0x00
(a candidate start with fewer than 6 bytes remaining) crashes the same way;
none of them produces RunStatistics. -/
theorem c2_unhandled_crashes :
    convertFile [] = .crash [] ∧ convertFile [0] = .crash [] ∧
    convertFile [0xfe, 0] = .crash [] := by
  refine ⟨by decide, by decide, by decide⟩

/-- C3: the concrete spec scenario fails on the code.  On input
0x00 0x00 ++ validFrame the extractor emits exactly one unit, a Junk record
of byte length 0 (stale empty junk buffer), and never emits the valid frame
at all: the frame ends exactly at the end of the buffer, so reading the
resync-confirmation byte raises IndexError and the pass terminates without
emitting it. -/
theorem c3_scenario_fails :
    convertFile ([0, 0] ++ validFrame) = .ok [⟨1, 3, 0, []⟩] 0 0 1 := by
  decide

/-- C4: a junk emission with no pending carryover byte does not contain the
k bytes preceding the sentinel.  On input 0x01 0xFE 1 2 3 4 5 the sentinel
is found at offset k = 1, but the emitted Junk record is the stale empty
junk buffer instead of the single byte 0x01, which is dropped. -/
theorem c4_junk_without_carry_wrong :
    convertFile [1, 0xfe, 1, 2, 3, 4, 5] = .ok [⟨1, 3, 0, []⟩] 0 0 1 := by
  decide

/-- C6 counterexample: a well-formed frame that is the last bytes of the
buffer is not emitted.  Running the extractor on validFrame alone writes no
record at all (and the run even crashes afterwards with ZeroDivisionError in
the statistics line, all three counters being zero). -/
theorem c6_last_frame_not_emitted :
    convertFile validFrame = .crash [] ∧
    (convertFile validFrame).packets = [] := by
  refine ⟨by decide, by decide⟩

/-- Helper describing the emission branch of frameStep: when the header
parses, the stored crc is readable, the seed lookup succeeds and the
resync-confirmation byte is the sentinel, the frame is emitted with the crc
flag and the cursor advances by the total length. -/
theorem frameStep_emit (s : St) (h6 : 6 ≤ s.data.length)
    (hm : s.data.getD 0 0 = MAVLINK_MAGIC)
    (hmsg : s.data.getD 5 0 < MAVLINK_MESSAGE_CRCS.length)
    (hlen : 6 + s.data.getD 1 0 + 2 < s.data.length)
    (hnext : s.data.getD (6 + s.data.getD 1 0 + 2) 0 = MAVLINK_MAGIC) :
    frameStep s = .cont { s with
      out := s.out ++ [⟨s.i,
        if x25seed ((s.data.drop 1).take (5 + s.data.getD 1 0))
            (MAVLINK_MESSAGE_CRCS.getD (s.data.getD 5 0) 0) =
           s.data.getD (6 + s.data.getD 1 0) 0 +
             256 * s.data.getD (6 + s.data.getD 1 0 + 1) 0
        then 0 else 1,
        6 + s.data.getD 1 0 + 2, s.data.take (6 + s.data.getD 1 0 + 2)⟩],
      data := s.data.drop (6 + s.data.getD 1 0 + 2),
      cntOk := if x25seed ((s.data.drop 1).take (5 + s.data.getD 1 0))
            (MAVLINK_MESSAGE_CRCS.getD (s.data.getD 5 0) 0) =
           s.data.getD (6 + s.data.getD 1 0) 0 +
             256 * s.data.getD (6 + s.data.getD 1 0 + 1) 0
        then s.cntOk + 1 else s.cntOk,
      cntCrc := if x25seed ((s.data.drop 1).take (5 + s.data.getD 1 0))
            (MAVLINK_MESSAGE_CRCS.getD (s.data.getD 5 0) 0) =
           s.data.getD (6 + s.data.getD 1 0) 0 +
             256 * s.data.getD (6 + s.data.getD 1 0 + 1) 0
        then s.cntCrc else s.cntCrc + 1 } := by
  have hp : parse_header s.data = some ⟨s.data.getD 1 0, s.data.getD 2 0,
      s.data.getD 3 0, s.data.getD 4 0, s.data.getD 5 0⟩ := by
    unfold parse_header
    rw [if_pos ⟨h6, hm⟩]
  have e2 : 6 + s.data.getD 1 0 + 2 - 2 = 6 + s.data.getD 1 0 := by omega
  have e1 : 6 + s.data.getD 1 0 + 2 - 1 = 6 + s.data.getD 1 0 + 1 := by omega
  have hl : (s.data.take (6 + s.data.getD 1 0 + 2)).length =
      6 + s.data.getD 1 0 + 2 := by
    rw [List.length_take]; omega
  simp only [frameStep, hp]
  rw [if_neg (by omega : ¬ s.data.length < 6 + s.data.getD 1 0 + 2)]
  rw [if_pos hmsg]
  rw [if_neg (by omega : ¬ s.data.length ≤ 6 + s.data.getD 1 0 + 2)]
  rw [if_neg (not_not_intro hnext)]
  rw [e2, e1, hl]
  by_cases hc : x25seed ((s.data.drop 1).take (5 + s.data.getD 1 0))
      (MAVLINK_MESSAGE_CRCS.getD (s.data.getD 5 0) 0) =
    s.data.getD (6 + s.data.getD 1 0) 0 +
      256 * s.data.getD (6 + s.data.getD 1 0 + 1) 0
  · simp [hc]
  · simp [hc]

/-- C5: a candidate frame that passes the resync confirmation is always
emitted, classified Valid (crc flag 0) exactly when the CRC-16/X.25 value
accumulated over bytes cursor+1 .. cursor+6+payload_length, followed by one
extra accumulation of the seed byte indexed by message id, equals the
2-byte little-endian value stored at the end of the frame, and classified
ChecksumMismatch (crc flag 1) when it differs; in both cases the cursor
advances by total_length = 6 + payload_length + 2. -/
theorem c5_crc_classification (s : St) (h6 : 6 ≤ s.data.length)
    (hm : s.data.getD 0 0 = MAVLINK_MAGIC)
    (hmsg : s.data.getD 5 0 < MAVLINK_MESSAGE_CRCS.length)
    (hlen : 6 + s.data.getD 1 0 + 2 < s.data.length)
    (hnext : s.data.getD (6 + s.data.getD 1 0 + 2) 0 = MAVLINK_MAGIC) :
    frameStep s = .cont { s with
      out := s.out ++ [⟨s.i,
        if x25seed ((s.data.drop 1).take (5 + s.data.getD 1 0))
            (MAVLINK_MESSAGE_CRCS.getD (s.data.getD 5 0) 0) =
           s.data.getD (6 + s.data.getD 1 0) 0 +
             256 * s.data.getD (6 + s.data.getD 1 0 + 1) 0
        then 0 else 1,
        6 + s.data.getD 1 0 + 2, s.data.take (6 + s.data.getD 1 0 + 2)⟩],
      data := s.data.drop (6 + s.data.getD 1 0 + 2),
      cntOk := if x25seed ((s.data.drop 1).take (5 + s.data.getD 1 0))
            (MAVLINK_MESSAGE_CRCS.getD (s.data.getD 5 0) 0) =
           s.data.getD (6 + s.data.getD 1 0) 0 +
             256 * s.data.getD (6 + s.data.getD 1 0 + 1) 0
        then s.cntOk + 1 else s.cntOk,
      cntCrc := if x25seed ((s.data.drop 1).take (5 + s.data.getD 1 0))
            (MAVLINK_MESSAGE_CRCS.getD (s.data.getD 5 0) 0) =
           s.data.getD (6 + s.data.getD 1 0) 0 +
             256 * s.data.getD (6 + s.data.getD 1 0 + 1) 0
        then s.cntCrc else s.cntCrc + 1 } :=
  frameStep_emit s h6 hm hmsg hlen hnext

/-- C5 witness: the classification step applied to a concrete state holding
the valid example frame followed by a sentinel byte. -/
theorem c5_crc_classification_w :
    frameStep ⟨validFrame ++ [0xfe], none, [], 1, 0, 0, 0, []⟩ =
      .cont ⟨[0xfe], none, [], 1, 1, 0, 0, [⟨1, 0, 10, validFrame⟩]⟩ :=
  (c5_crc_classification ⟨validFrame ++ [0xfe], none, [], 1, 0, 0, 0, []⟩
    (by decide) (by decide) (by decide) (by decide) (by decide)).trans (by decide)

/-- C6 amended: a frame whose declared payload_length and checksum are both
correct and which is followed immediately by a sentinel byte is emitted and
classified Valid; a well-formed frame ending exactly at the end of the
buffer is NOT emitted (the pass terminates instead, see the
counterexample). -/
theorem c6_valid_frame_emitted (s : St) (h6 : 6 ≤ s.data.length)
    (hm : s.data.getD 0 0 = MAVLINK_MAGIC)
    (hmsg : s.data.getD 5 0 < MAVLINK_MESSAGE_CRCS.length)
    (hlen : 6 + s.data.getD 1 0 + 2 < s.data.length)
    (hnext : s.data.getD (6 + s.data.getD 1 0 + 2) 0 = MAVLINK_MAGIC)
    (hcrc : x25seed ((s.data.drop 1).take (5 + s.data.getD 1 0))
        (MAVLINK_MESSAGE_CRCS.getD (s.data.getD 5 0) 0) =
      s.data.getD (6 + s.data.getD 1 0) 0 +
        256 * s.data.getD (6 + s.data.getD 1 0 + 1) 0) :
    frameStep s = .cont { s with
      out := s.out ++ [⟨s.i, 0, 6 + s.data.getD 1 0 + 2,
        s.data.take (6 + s.data.getD 1 0 + 2)⟩],
      data := s.data.drop (6 + s.data.getD 1 0 + 2),
      cntOk := s.cntOk + 1 } := by
  rw [frameStep_emit s h6 hm hmsg hlen hnext]
  simp only [if_pos hcrc]

/-- C6 witness: the amended statement applied to a concrete state holding
the valid example frame followed by a sentinel and one more byte. -/
theorem c6_valid_frame_emitted_w :
    frameStep ⟨validFrame ++ [0xfe, 7], none, [], 2, 0, 0, 0, []⟩ =
      .cont ⟨[0xfe, 7], none, [], 2, 1, 0, 0, [⟨2, 0, 10, validFrame⟩]⟩ :=
  (c6_valid_frame_emitted ⟨validFrame ++ [0xfe, 7], none, [], 2, 0, 0, 0, []⟩
    (by decide) (by decide) (by decide) (by decide) (by decide)
    (by decide)).trans (by decide)

/-- C7: when the resync confirmation fails (the byte at cursor plus
total_length exists and is not the sentinel), nothing is emitted, the byte
at the cursor is stored as the pending orphan byte, the cursor advances by
exactly one byte, and all counters are unchanged. -/
theorem c7_resync_failure (s : St) (h6 : 6 ≤ s.data.length)
    (hm : s.data.getD 0 0 = MAVLINK_MAGIC)
    (hmsg : s.data.getD 5 0 < MAVLINK_MESSAGE_CRCS.length)
    (hlen : 6 + s.data.getD 1 0 + 2 < s.data.length)
    (hnext : s.data.getD (6 + s.data.getD 1 0 + 2) 0 ≠ MAVLINK_MAGIC) :
    frameStep s = .cont { s with skipped := some (s.data.getD 0 0),
                                 data := s.data.drop 1 } := by
  have hp : parse_header s.data = some ⟨s.data.getD 1 0, s.data.getD 2 0,
      s.data.getD 3 0, s.data.getD 4 0, s.data.getD 5 0⟩ := by
    unfold parse_header
    rw [if_pos ⟨h6, hm⟩]
  simp only [frameStep, hp]
  rw [if_neg (by omega : ¬ s.data.length < 6 + s.data.getD 1 0 + 2)]
  rw [if_pos hmsg]
  rw [if_neg (by omega : ¬ s.data.length ≤ 6 + s.data.getD 1 0 + 2)]
  rw [if_pos hnext]

/-- C7 witness: the resync-failure step applied to a concrete state whose
proposed 8-byte frame is followed by 0x11 instead of the sentinel. -/
theorem c7_resync_failure_w :
    frameStep ⟨[0xfe, 0, 0, 0, 0, 0, 0, 0, 0x11, 0x22], none, [], 3, 0, 0, 0, []⟩ =
      .cont ⟨[0, 0, 0, 0, 0, 0, 0, 0x11, 0x22], some 0xfe, [], 3, 0, 0, 0, []⟩ :=
  (c7_resync_failure ⟨[0xfe, 0, 0, 0, 0, 0, 0, 0, 0x11, 0x22], none, [], 3, 0, 0, 0, []⟩
    (by decide) (by decide) (by decide) (by decide) (by decide)).trans (by decide)

/-- C8: the checksum-seed lookup is total.  The seed table has one entry per
possible message id byte, so MAVLINK_MESSAGE_CRCS[msgid] never raises for
msgid 0..255 (ids outside the known message range simply carry the table
value, 0 for unassigned rows), and for every such id a frame carrying that
id is classified and emitted like any other: with a matching checksum and a
trailing sentinel the run emits it as Valid and terminates cleanly. -/
theorem c8_seed_lookup_total :
    MAVLINK_MESSAGE_CRCS.length = 256 ∧
    ∀ m, m < 256 →
      convertFile (mkFrame m ++ [0xfe, 0, 0, 0, 0, 0]) =
        .ok [⟨1, 0, 8, mkFrame m⟩] 1 0 0 :=
  ⟨by decide, by decide⟩

/-- C8 witness: the lookup and emission at the concrete message id 37. -/
theorem c8_seed_lookup_total_w :
    convertFile (mkFrame 37 ++ [0xfe, 0, 0, 0, 0, 0]) =
      .ok [⟨1, 0, 8, mkFrame 37⟩] 1 0 0 :=
  c8_seed_lookup_total.2 37 (by decide)

/-- Little-endian byte serialization of a 32-bit value, as struct.pack with
format I produces on the little-endian platforms the script targets (write
mode uses native byte order). -/
def u32le (n : Nat) : List Nat :=
  [n % 256, n / 256 % 256, n / 65536 % 256, n / 16777216 % 256]

/-- Little-endian byte serialization of a 16-bit value, struct.pack H. -/
def u16le (n : Nat) : List Nat := [n % 256, n / 256 % 256]

/-- struct.unpack of one 32-bit value in the byte order detected from the
pcap magic (be = true for the big-endian format tag). -/
def readU32 (be : Bool) (l : List Nat) : Nat :=
  if be then
    16777216 * l.getD 0 0 + 65536 * l.getD 1 0 + 256 * l.getD 2 0 + l.getD 3 0
  else
    l.getD 0 0 + 256 * l.getD 1 0 + 65536 * l.getD 2 0 + 16777216 * l.getD 3 0

/-- struct.unpack of one 16-bit value in the detected byte order. -/
def readU16 (be : Bool) (l : List Nat) : Nat :=
  if be then 256 * l.getD 0 0 + l.getD 1 0
  else l.getD 0 0 + 256 * l.getD 1 0

/-- pcap magic number, pcap._MAGIC in the source. -/
def pcapMagicVal : Nat := 0xa1b2c3d4

/-- The 24-byte pcap global header written on a fresh sink: magic, version
2.4, thiszone 0, sigfigs 0, snaplen and linktype. -/
def pcapGlobalHeader (snaplen linktype : Nat) : List Nat :=
  u32le pcapMagicVal ++ u16le 2 ++ u16le 4 ++ u32le 0 ++ u32le 0 ++
    u32le snaplen ++ u32le linktype

/-- Byte serialization of one record as pcap.write emits it for
write_packet(number, datum, flags, pktLen): the 16-byte record header packs
tv_sec = number, tv_usec = flags, then the pkt_length argument and then
len(datum).  Note the source packs the length field before the captured
length, while pcap.read unpacks captured length first; the two coincide
because every write_packet call passes pkt_length = len(datum). -/
def writeRecBytes (r : PcapRec) : List Nat :=
  u32le r.number ++ u32le r.flags ++ u32le r.pktLen ++
    u32le r.datum.length ++ r.datum

/-- Model of the pcap.read iteration: each step consumes a 16-byte record
header unpacked as (tv_sec, tv_usec, caplen, length) and then caplen bytes
of payload, yielding ((tv_sec, tv_usec, length), datum); an empty rest is
the clean end of the stream.  none models both a short record header (a
struct.error in the source) and fuel exhaustion (unreachable from
readPcapIntended, which passes the byte count as fuel). -/
def readRecsLoop (be : Bool) : Nat → List Nat → Option (List ((Nat × Nat × Nat) × List Nat))
  | _, [] => some []
  | 0, _ :: _ => none
  | fuel + 1, b :: t =>
    let l := b :: t
    if l.length < 16 then none
    else
      let sec := readU32 be (l.take 4)
      let usec := readU32 be ((l.drop 4).take 4)
      let caplen := readU32 be ((l.drop 8).take 4)
      let len := readU32 be ((l.drop 12).take 4)
      match readRecsLoop be fuel ((l.drop 16).drop caplen) with
      | some rs => some (((sec, usec, len), (l.drop 16).take caplen) :: rs)
      | none => none

/-- The pcap read path as pcap.__init__ evidently intends it and as the
original py-pcap implements it: the 24-byte global header is read, the byte
order is detected from the magic (little-endian tried first), the version
must be 2.4, and then records are read until the stream is exhausted.
This is NOT reachable in the source as it stands: the first statement of
the read branch, self._endian = pcap.None (line 64), raises before this
logic runs - see readPcap below for the faithful model.  It is kept, under
this separate name, only to show that the container format itself
round-trips once that one-line slip is repaired to self._endian = None. -/
def readPcapIntended (l : List Nat) : Option (List ((Nat × Nat × Nat) × List Nat)) :=
  if l.length < 24 then none
  else if readU32 false (l.take 4) = pcapMagicVal then
    if readU16 false ((l.drop 4).take 2) = 2 ∧ readU16 false ((l.drop 6).take 2) = 4 then
      readRecsLoop false (l.drop 24).length (l.drop 24)
    else none
  else if readU32 true (l.take 4) = pcapMagicVal then
    if readU16 true ((l.drop 4).take 2) = 2 ∧ readU16 true ((l.drop 6).take 2) = 4 then
      readRecsLoop true (l.drop 24).length (l.drop 24)
    else none
  else none

theorem u32le_length (n : Nat) : (u32le n).length = 4 := rfl

theorem readU32_u32le (n : Nat) (h : n < 4294967296) : readU32 false (u32le n) = n := by
  simp [readU32, u32le, List.getD]
  omega

theorem readRecsLoop_nil (be : Bool) (fuel : Nat) : readRecsLoop be fuel [] = some [] := by
  cases fuel <;> rfl

/-- One reader step inverts one writer step, provided the header fields fit
in 32 bits and the pkt_length argument equals the payload length (as at
every write_packet call site). -/
theorem readRecsLoop_cons (r : PcapRec) (rest : List Nat) (fuel : Nat)
    (hnum : r.number < 4294967296) (hfl : r.flags < 4294967296)
    (hdl : r.datum.length < 4294967296) (hpk : r.pktLen = r.datum.length) :
    readRecsLoop false (fuel + 1) (writeRecBytes r ++ rest) =
      (readRecsLoop false fuel rest).map
        (fun rs => ((r.number, r.flags, r.datum.length), r.datum) :: rs) := by
  have hassoc : writeRecBytes r ++ rest =
      u32le r.number ++ (u32le r.flags ++ (u32le r.pktLen ++
        (u32le r.datum.length ++ (r.datum ++ rest)))) := by
    simp [writeRecBytes]
  have hlen : (writeRecBytes r ++ rest).length = 16 + r.datum.length + rest.length := by
    simp [writeRecBytes, u32le]; omega
  have hcons : writeRecBytes r ++ rest ≠ [] := by
    intro he
    rw [he] at hlen
    simp only [List.length_nil] at hlen
    omega
  obtain ⟨a, l, he⟩ : ∃ a l, writeRecBytes r ++ rest = a :: l := by
    cases hx : writeRecBytes r ++ rest with
    | nil => exact absurd hx hcons
    | cons a l => exact ⟨a, l, rfl⟩
  rw [he, readRecsLoop]
  dsimp only
  rw [← he]
  rw [if_neg (by omega : ¬ (writeRecBytes r ++ rest).length < 16)]
  have t4 : (writeRecBytes r ++ rest).take 4 = u32le r.number := by
    rw [hassoc]; exact List.take_left' (u32le_length _)
  have d4 : (writeRecBytes r ++ rest).drop 4 =
      u32le r.flags ++ (u32le r.pktLen ++ (u32le r.datum.length ++ (r.datum ++ rest))) := by
    rw [hassoc]; exact List.drop_left' (u32le_length _)
  have t8 : ((writeRecBytes r ++ rest).drop 4).take 4 = u32le r.flags := by
    rw [d4]; exact List.take_left' (u32le_length _)
  have d8 : (writeRecBytes r ++ rest).drop 8 =
      u32le r.pktLen ++ (u32le r.datum.length ++ (r.datum ++ rest)) := by
    have : (8 : Nat) = 4 + 4 := rfl
    rw [this, ← List.drop_drop, d4]
    exact List.drop_left' (u32le_length _)
  have t12 : ((writeRecBytes r ++ rest).drop 8).take 4 = u32le r.pktLen := by
    rw [d8]; exact List.take_left' (u32le_length _)
  have d12 : (writeRecBytes r ++ rest).drop 12 =
      u32le r.datum.length ++ (r.datum ++ rest) := by
    have : (12 : Nat) = 8 + 4 := rfl
    rw [this, ← List.drop_drop, d8]
    exact List.drop_left' (u32le_length _)
  have t16 : ((writeRecBytes r ++ rest).drop 12).take 4 = u32le r.datum.length := by
    rw [d12]; exact List.take_left' (u32le_length _)
  have d16 : (writeRecBytes r ++ rest).drop 16 = r.datum ++ rest := by
    have : (16 : Nat) = 12 + 4 := rfl
    rw [this, ← List.drop_drop, d12]
    exact List.drop_left' (u32le_length _)
  rw [t4, t8, d16, t12, t16]
  rw [readU32_u32le _ hnum, readU32_u32le _ hfl, readU32_u32le _ hdl,
    readU32_u32le _ (hpk ▸ hdl)]
  rw [hpk]
  rw [List.take_left, List.drop_left]
  cases readRecsLoop false fuel rest with
  | none => rfl
  | some rs => rfl

theorem length_le_flatten (recs : List PcapRec) :
    recs.length ≤ ((recs.map writeRecBytes).flatten).length := by
  induction recs with
  | nil => simp
  | cons r rs ih =>
    simp only [List.map_cons, List.flatten_cons, List.length_append, List.length_cons]
    have : 1 ≤ (writeRecBytes r).length := by
      simp [writeRecBytes, u32le]
    omega

/-- The reader loop inverts the full writer output. -/
theorem readRecsLoop_roundtrip (recs : List PcapRec)
    (h : ∀ r ∈ recs, r.number < 4294967296 ∧ r.flags < 4294967296 ∧
      r.datum.length < 4294967296 ∧ r.pktLen = r.datum.length) :
    ∀ fuel, recs.length ≤ fuel →
      readRecsLoop false fuel ((recs.map writeRecBytes).flatten) =
        some (recs.map fun r => ((r.number, r.flags, r.datum.length), r.datum)) := by
  induction recs with
  | nil =>
    intro fuel _
    simp only [List.map_nil, List.flatten_nil, readRecsLoop_nil]
  | cons r rs ih =>
    intro fuel hfuel
    obtain ⟨f, rfl⟩ : ∃ f, fuel = f + 1 := ⟨fuel - 1, by simp at hfuel; omega⟩
    have hr := h r (by simp)
    have hrs : ∀ x ∈ rs, x.number < 4294967296 ∧ x.flags < 4294967296 ∧
        x.datum.length < 4294967296 ∧ x.pktLen = x.datum.length :=
      fun x hx => h x (by simp [hx])
    simp only [List.map_cons, List.flatten_cons]
    rw [readRecsLoop_cons r _ f hr.1 hr.2.1 hr.2.2.1 hr.2.2.2]
    rw [ih hrs f (by simp at hfuel; omega)]
    rfl

/-- Round-trip of the container format through the intended (line-64
repaired) read path: writing any list of classified records (global header
followed by one record serialization per frame, each call passing
pkt_length equal to the payload length, as all call sites do) and reading
the container back yields exactly the same records, with the same raw
payload bytes, captured and original lengths, and classification flags, in
the same order.  The 32-bit bounds reflect the u32 container fields. -/
theorem readPcapIntended_roundtrip (recs : List PcapRec) (snaplen linktype : Nat)
    (h : ∀ r ∈ recs, r.number < 4294967296 ∧ r.flags < 4294967296 ∧
      r.datum.length < 4294967296 ∧ r.pktLen = r.datum.length) :
    readPcapIntended (pcapGlobalHeader snaplen linktype ++ (recs.map writeRecBytes).flatten) =
      some (recs.map fun r => ((r.number, r.flags, r.datum.length), r.datum)) := by
  have hL : pcapGlobalHeader snaplen linktype ++ (recs.map writeRecBytes).flatten =
      u32le pcapMagicVal ++ (u16le 2 ++ (u16le 4 ++ (u32le 0 ++ (u32le 0 ++
        (u32le snaplen ++ (u32le linktype ++ (recs.map writeRecBytes).flatten)))))) := by
    simp [pcapGlobalHeader, List.append_assoc]
  have hlen : (pcapGlobalHeader snaplen linktype ++ (recs.map writeRecBytes).flatten).length =
      24 + ((recs.map writeRecBytes).flatten).length := by
    simp [pcapGlobalHeader, u32le, u16le]
    omega
  have t4 : (pcapGlobalHeader snaplen linktype ++ (recs.map writeRecBytes).flatten).take 4 =
      u32le pcapMagicVal := by
    rw [hL]; exact List.take_left' rfl
  have d4 : (pcapGlobalHeader snaplen linktype ++ (recs.map writeRecBytes).flatten).drop 4 =
      u16le 2 ++ (u16le 4 ++ (u32le 0 ++ (u32le 0 ++
        (u32le snaplen ++ (u32le linktype ++ (recs.map writeRecBytes).flatten))))) := by
    rw [hL]; exact List.drop_left' rfl
  have t6 : ((pcapGlobalHeader snaplen linktype ++ (recs.map writeRecBytes).flatten).drop 4).take 2 =
      u16le 2 := by
    rw [d4]; exact List.take_left' rfl
  have d6 : (pcapGlobalHeader snaplen linktype ++ (recs.map writeRecBytes).flatten).drop 6 =
      u16le 4 ++ (u32le 0 ++ (u32le 0 ++
        (u32le snaplen ++ (u32le linktype ++ (recs.map writeRecBytes).flatten)))) := by
    rw [show (6 : Nat) = 4 + 2 from rfl, ← List.drop_drop, d4]
    exact List.drop_left' rfl
  have t8 : ((pcapGlobalHeader snaplen linktype ++ (recs.map writeRecBytes).flatten).drop 6).take 2 =
      u16le 4 := by
    rw [d6]; exact List.take_left' rfl
  have d8 : (pcapGlobalHeader snaplen linktype ++ (recs.map writeRecBytes).flatten).drop 8 =
      u32le 0 ++ (u32le 0 ++ (u32le snaplen ++ (u32le linktype ++ (recs.map writeRecBytes).flatten))) := by
    rw [show (8 : Nat) = 6 + 2 from rfl, ← List.drop_drop, d6]
    exact List.drop_left' rfl
  have d12 : (pcapGlobalHeader snaplen linktype ++ (recs.map writeRecBytes).flatten).drop 12 =
      u32le 0 ++ (u32le snaplen ++ (u32le linktype ++ (recs.map writeRecBytes).flatten)) := by
    rw [show (12 : Nat) = 8 + 4 from rfl, ← List.drop_drop, d8]
    exact List.drop_left' rfl
  have d16 : (pcapGlobalHeader snaplen linktype ++ (recs.map writeRecBytes).flatten).drop 16 =
      u32le snaplen ++ (u32le linktype ++ (recs.map writeRecBytes).flatten) := by
    rw [show (16 : Nat) = 12 + 4 from rfl, ← List.drop_drop, d12]
    exact List.drop_left' rfl
  have d20 : (pcapGlobalHeader snaplen linktype ++ (recs.map writeRecBytes).flatten).drop 20 =
      u32le linktype ++ (recs.map writeRecBytes).flatten := by
    rw [show (20 : Nat) = 16 + 4 from rfl, ← List.drop_drop, d16]
    exact List.drop_left' rfl
  have d24 : (pcapGlobalHeader snaplen linktype ++ (recs.map writeRecBytes).flatten).drop 24 =
      (recs.map writeRecBytes).flatten := by
    rw [show (24 : Nat) = 20 + 4 from rfl, ← List.drop_drop, d20]
    exact List.drop_left' rfl
  unfold readPcapIntended
  rw [if_neg (by omega)]
  rw [if_pos (by rw [t4]; decide)]
  rw [if_pos (And.intro (by rw [t6]; decide) (by rw [t8]; decide))]
  rw [d24]
  exact readRecsLoop_roundtrip recs h _ (length_le_flatten recs)

/-- The intended-reader round trip at a concrete two-record container (one
junk record and the valid example frame) written with the snaplen and
linktype the script uses. -/
theorem readPcapIntended_roundtrip_w :
    readPcapIntended (pcapGlobalHeader 65535 147 ++
        (([⟨1, 3, 0, []⟩, ⟨2, 0, 10, validFrame⟩] : List PcapRec).map writeRecBytes).flatten) =
      some [((1, 3, 0), []), ((2, 0, 10), validFrame)] :=
  (readPcapIntended_roundtrip [⟨1, 3, 0, []⟩, ⟨2, 0, 10, validFrame⟩] 65535 147
    (by decide)).trans (by decide)

/-- Faithful model of opening a pcap stream for reading, pcap.__init__ with
mode rb followed by iterating records.  The init reads up to 24 header
bytes; if the read returned anything (a nonempty stream) it enters read
mode, whose first statement is self._endian = pcap.None (line 64): the
class has no attribute named None, so this raises AttributeError before
the endian detection loop ever runs (under Python 3 an attribute named
None is a SyntaxError, so the file does not even parse).  On an empty
stream the write-mode branch runs instead and tries to write a global
header into the stream just opened read-only, raising IOError, and in any
case reads no records.  Either way no record is ever read back: none. -/
def readPcap (l : List Nat) : Option (List ((Nat × Nat × Nat) × List Nat)) :=
  if (l.take 24).isEmpty then
    -- write-mode fallthrough on an empty stream: header write to a
    -- read-only stream raises IOError; no records are read
    none
  else
    -- read mode: self._endian = pcap.None raises AttributeError before
    -- the endian detection
    none

/-- C9: the round trip fails on the code as it stands.  The reader half of
the claim never runs: pcap.__init__ in read mode crashes unconditionally at
its first statement (line 64), so reading back any container - including
the concrete two-record container the writer produces from a junk record
and the valid example frame - yields no records at all instead of the N
originals.  The container format itself is sound: the slip is confined to
line 64, and readPcapIntended_roundtrip shows the records round-trip once
that line is repaired, which is why the claim is classified as stating the
intent against a one-line code slip. -/
theorem c9_reader_always_crashes :
    (∀ l : List Nat, readPcap l = none) ∧
    readPcap (pcapGlobalHeader 65535 147 ++
        (([⟨1, 3, 0, []⟩, ⟨2, 0, 10, validFrame⟩] : List PcapRec).map
          writeRecBytes).flatten) = none := by
  constructor
  · intro l
    unfold readPcap
    split <;> rfl
  · decide

/-- The C10 property of one emitted record. -/
def FrameRecOK (input : List Nat) (r : PcapRec) : Prop :=
  r.flags ≠ 3 → r.datum.head? = some MAVLINK_MAGIC ∧
    r.datum.length = 6 + r.datum.getD 1 0 + 2 ∧
    ∃ pre rest, input = pre ++ r.datum ++ rest ∧ rest.head? = some MAVLINK_MAGIC

/-- Loop invariant. -/
def StInv (input : List Nat) (s : St) : Prop :=
  s.data.IsSuffix input ∧ ∀ r ∈ s.out, FrameRecOK input r

/-- The state carried by a step result. -/
def StepRes.st : StepRes → St
  | .cont s => s
  | .finished s => s
  | .crashed s => s

theorem getElem?_eq_some_getD (l : List Nat) (i : Nat) (h : i < l.length) :
    l[i]? = some (l.getD i 0) := by
  rw [List.getElem?_eq_getElem h, List.getD_eq_getElem l 0 h]

theorem junkPhase_inv (input : List Nat) (s : St) (h : StInv input s) :
    StInv input (junkPhase s) := by
  obtain ⟨hsuf, hout⟩ := h
  unfold junkPhase
  cases hf : find_next_frame s.data with
  | none => exact ⟨hsuf, hout⟩
  | some k =>
    dsimp only
    split
    case isFalse => exact ⟨hsuf, hout⟩
    case isTrue hk =>
      split
      case isFalse => exact ⟨(List.drop_suffix k s.data).trans hsuf, hout⟩
      case isTrue hw =>
        cases hsk : s.skipped with
        | some c =>
          dsimp only
          refine ⟨(List.drop_suffix k s.data).trans hsuf, ?_⟩
          intro r hr
          rcases List.mem_append.mp hr with hro | hrn
          · exact hout r hro
          · have he : r = ⟨s.i, 3, (c :: s.data.take k).length, c :: s.data.take k⟩ := by
              simpa using hrn
            subst he
            intro h3
            exact absurd rfl h3
        | none =>
          dsimp only
          refine ⟨(List.drop_suffix k s.data).trans hsuf, ?_⟩
          intro r hr
          rcases List.mem_append.mp hr with hro | hrn
          · exact hout r hro
          · have he : r = ⟨s.i, 3, s.junk.length, s.junk⟩ := by
              simpa using hrn
            subst he
            intro h3
            exact absurd rfl h3

theorem frameStep_inv (input : List Nat) (t : St) (h : StInv input t) :
    StInv input (frameStep t).st := by
  obtain ⟨hsuf, hout⟩ := h
  unfold frameStep
  cases hph : parse_header t.data with
  | none => exact ⟨hsuf, hout⟩
  | some hdr =>
    have hfields : 6 ≤ t.data.length ∧ t.data.getD 0 0 = MAVLINK_MAGIC ∧
        hdr.plength = t.data.getD 1 0 := by
      unfold parse_header at hph
      by_cases hc : 6 ≤ t.data.length ∧ t.data.getD 0 0 = MAVLINK_MAGIC
      · rw [if_pos hc] at hph
        obtain ⟨h1, h2⟩ := hc
        refine ⟨h1, h2, ?_⟩
        have := Option.some.inj hph
        rw [← this]
      · rw [if_neg hc] at hph
        exact absurd hph (by simp)
    obtain ⟨hd6, hdm, hdp⟩ := hfields
    dsimp only
    split
    case isTrue => exact ⟨hsuf, hout⟩
    case isFalse hlen1 =>
      split
      case isFalse => exact ⟨hsuf, hout⟩
      case isTrue hmsg =>
        split
        case isTrue => exact ⟨hsuf, hout⟩
        case isFalse hlen2 =>
          split
          case isTrue hnm =>
            exact ⟨(List.drop_suffix 1 t.data).trans hsuf, hout⟩
          case isFalse hnm =>
            have hmagic : t.data.getD (6 + hdr.plength + 2) 0 = MAVLINK_MAGIC := by
              by_contra hx
              exact hnm hx
            have hpklt : 6 + hdr.plength + 2 < t.data.length := by omega
            refine ⟨(List.drop_suffix (6 + hdr.plength + 2) t.data).trans hsuf, ?_⟩
            intro r hr
            rcases List.mem_append.mp hr with hro | hrn
            · exact hout r hro
            · have he : r = ⟨t.i,
                  if x25seed ((t.data.drop 1).take (5 + hdr.plength))
                      (MAVLINK_MESSAGE_CRCS.getD hdr.msgid 0) ≠
                    t.data.getD (6 + hdr.plength + 2 - 2) 0 +
                      256 * t.data.getD (6 + hdr.plength + 2 - 1) 0
                  then 1 else 0,
                  (t.data.take (6 + hdr.plength + 2)).length,
                  t.data.take (6 + hdr.plength + 2)⟩ := by
                simpa using hrn
            -- the emitted record satisfies the frame property
              subst he
              intro _
              refine ⟨?_, ?_, ?_⟩
              · rw [List.head?_eq_getElem?, List.getElem?_take]
                rw [if_pos (by omega : (0 : Nat) < 6 + hdr.plength + 2)]
                exact getElem?_eq_some_getD t.data 0 (by omega) |>.trans (by rw [hdm])
              · dsimp only
                have hlt : (t.data.take (6 + hdr.plength + 2)).length =
                    6 + hdr.plength + 2 := by
                  rw [List.length_take]
                  omega
                rw [hlt]
                have hg1 : (t.data.take (6 + hdr.plength + 2)).getD 1 0 =
                    t.data.getD 1 0 := by
                  rw [List.getD_eq_getElem?_getD, List.getElem?_take,
                    if_pos (by omega : (1 : Nat) < 6 + hdr.plength + 2),
                    ← List.getD_eq_getElem?_getD]
                rw [hg1, ← hdp]
              · obtain ⟨pre, hpre⟩ := hsuf
                refine ⟨pre, t.data.drop (6 + hdr.plength + 2), ?_, ?_⟩
                · rw [← hpre, List.append_assoc, List.take_append_drop]
                · rw [List.head?_drop]
                  exact (getElem?_eq_some_getD t.data _ hpklt).trans (by rw [hmagic])

theorem step_inv (input : List Nat) (s : St) (h : StInv input s) :
    StInv input (step s).st := by
  have h1 : StInv input (junkPhase { s with i := s.i + 1 }) :=
    junkPhase_inv input { s with i := s.i + 1 } ⟨h.1, h.2⟩
  exact frameStep_inv input _ h1

theorem runLoop_inv (input : List Nat) :
    ∀ fuel s b s', StInv input s → runLoop fuel s = some (b, s') →
      ∀ r ∈ s'.out, FrameRecOK input r := by
  intro fuel
  induction fuel with
  | zero =>
    intro s b s' _ hrun
    simp [runLoop] at hrun
  | succ f ih =>
    intro s b s' hinv hrun
    rw [runLoop] at hrun
    cases hstep : step s with
    | cont u =>
      rw [hstep] at hrun
      have hu : StInv input u := by
        have := step_inv input s hinv
        rw [hstep] at this
        exact this
      exact ih u b s' hu hrun
    | finished u =>
      rw [hstep] at hrun
      simp only [Option.some.injEq, Prod.mk.injEq] at hrun
      obtain ⟨-, rfl⟩ := hrun
      have := step_inv input s hinv
      rw [hstep] at this
      exact this.2
    | crashed u =>
      rw [hstep] at hrun
      simp only [Option.some.injEq, Prod.mk.injEq] at hrun
      obtain ⟨-, rfl⟩ := hrun
      have := step_inv input s hinv
      rw [hstep] at this
      exact this.2

/-- C10: every emitted frame record (classification flag 0 or 1, i.e. not
Junk) begins with the sentinel byte 0xFE, has total byte length exactly
6 + payload_length + 2 where payload_length is the record's second byte,
and occurs in the input buffer with the byte immediately following it equal
to the sentinel 0xFE. -/
theorem c10_frame_records_wellformed (input : List Nat) (r : PcapRec)
    (hr : r ∈ (convertFile input).packets) (hfl : r.flags ≠ 3) :
    r.datum.head? = some MAVLINK_MAGIC ∧
    r.datum.length = 6 + r.datum.getD 1 0 + 2 ∧
    ∃ pre rest, input = pre ++ r.datum ++ rest ∧
      rest.head? = some MAVLINK_MAGIC := by
  have base : StInv input (initSt input) := by
    refine ⟨List.suffix_refl input, ?_⟩
    intro x hx
    simp [initSt] at hx
  unfold convertFile at hr
  cases hrun : runLoop (input.length + 1) (initSt input) with
  | none =>
    rw [hrun] at hr
    simp [Outcome.packets] at hr
  | some p =>
    obtain ⟨b, s'⟩ := p
    rw [hrun] at hr
    have hall := runLoop_inv input (input.length + 1) (initSt input) b s' base hrun
    cases b with
    | false =>
      dsimp only [Outcome.packets] at hr
      exact hall r hr hfl
    | true =>
      dsimp only at hr
      by_cases hz : s'.cntJunk + s'.cntOk + s'.cntCrc = 0
      · rw [if_pos hz] at hr
        dsimp only [Outcome.packets] at hr
        exact hall r hr hfl
      · rw [if_neg hz] at hr
        dsimp only [Outcome.packets] at hr
        exact hall r hr hfl


/-- C10 witness: the frame record produced by a concrete run, a frame with
message id 0 followed by a sentinel and five filler bytes. -/
theorem c10_frame_records_wellformed_w :
    (mkFrame 0).head? = some MAVLINK_MAGIC ∧
    (mkFrame 0).length = 6 + (mkFrame 0).getD 1 0 + 2 ∧
    ∃ pre rest, mkFrame 0 ++ [0xfe, 0, 0, 0, 0, 0] = pre ++ mkFrame 0 ++ rest ∧
      rest.head? = some MAVLINK_MAGIC :=
  c10_frame_records_wellformed (mkFrame 0 ++ [0xfe, 0, 0, 0, 0, 0])
    ⟨1, 0, 8, mkFrame 0⟩ (by decide) (by decide)

end Mav2pcap
